import Mathlib

/-!
# Verification of the baikal_project pipeline

Shallow embedding of the repository's three source files:

* src/create_rrs_table.py — radiometric scaling (scale_msi), cloud masking
  (mask_s2_clouds) and the observation-to-imagery matcher (preproc);
* app.py — the visualization-path variants (scale_msi, mask_S2_clouds) and
  the chlorophyll index (calculate_oc3);
* src/data_preprocessing.py — degree-minute coordinate normalization
  (convert_degree_and_min_to_degree).

Modelling conventions.  Band values are exact rationals (the source's decimal
constants 0.0001, 0.2389, … are modelled as the exact rationals they denote).
A provider image is a timestamp, a footprint-containment test and, for each
query point, the list of pixels of the ~20x20 m neighbourhood that the
median reduction at that point ranges over.  The provider's lazily evaluated
operations (filterDate with an exclusive end, filterBounds, updateMask
combining with the pre-existing mask, reduceRegion with the median reducer
skipping masked pixels, ee.Date raising on a malformed timestamp at
evaluation) are modelled by their documented semantics.  Transcendental
operations of the provider (log10, raising 10 to a power) are abstracted as
function parameters.  Pandas behaviour that preproc relies on is modelled
explicitly: dict insertion order, label-based column selection raising a
KeyError when none of the requested band columns exist (the case in which no
observation resolved), and the left join on the index.
-/

attribute [local semireducible] Rat.mul Rat.add Rat.inv Rat.sub Rat.ofScientific

/-- One pixel of a provider image: the Sentinel-2 bands used anywhere in the
repository (B1–B8A) as exact rationals, the QA60 quality bitmask, the
provider validity mask of the pixel (false = already masked / no data), and
whether the pixel lies inside the fixed region of interest used by clip. -/
structure SPixel where
  b1 : ℚ
  b2 : ℚ
  b3 : ℚ
  b4 : ℚ
  b5 : ℚ
  b6 : ℚ
  b7 : ℚ
  b8 : ℚ
  b8a : ℚ
  qa60 : Nat
  valid : Bool
  inRoi : Bool
deriving DecidableEq

/-- A provider image: its acquisition instant (system time, in milliseconds),
its footprint-containment test for a (longitude, latitude) point, and for
each query point the pixels of the ~20x20 m neighbourhood that the scale-20
median reduction at that point ranges over. -/
structure EEImage where
  t : ℤ
  contains : ℚ → ℚ → Bool
  pix : ℚ → ℚ → List SPixel

namespace CreateRrs

/-- The bands selected by scale_msi and mask_s2_clouds in
src/create_rrs_table.py: B2, B3, B4, B5, B6, B7, B8, B8A.  Their minimum at
one pixel, as computed by reduce(ee.Reducer.min()). -/
def opticalMin (p : SPixel) : ℚ :=
  min p.b2 (min p.b3 (min p.b4 (min p.b5 (min p.b6 (min p.b7 (min p.b8 p.b8a))))))

/-- scale_msi on one pixel: the selected optical bands B2–B8A are multiplied
by 0.0001; addBands(opticalBands, None, True) overwrites exactly the selected
bands, every other band of the pixel is untouched. -/
def scalePix (p : SPixel) : SPixel :=
  { p with
    b2 := p.b2 * 0.0001
    b3 := p.b3 * 0.0001
    b4 := p.b4 * 0.0001
    b5 := p.b5 * 0.0001
    b6 := p.b6 * 0.0001
    b7 := p.b7 * 0.0001
    b8 := p.b8 * 0.0001
    b8a := p.b8a * 0.0001 }

/-- scale_msi of src/create_rrs_table.py lifted to an image: every pixel is
scaled, the timestamp and footprint are untouched. -/
def scale_msi (im : EEImage) : EEImage :=
  { im with pix := fun x y => (im.pix x y).map scalePix }

/-- cloudBitMask = 1 << 10 of mask_s2_clouds. -/
def cloudBitMask : Nat := 1 <<< 10

/-- cirrusBitMask = 1 << 11 of mask_s2_clouds. -/
def cirrusBitMask : Nat := 1 <<< 11

/-- mask_s2_clouds on one pixel: updateMask(mask.And(mask_gt)) combines the
pre-existing mask with the computed one, so the pixel stays valid exactly
when it was valid before and QA60 has neither the cloud bit nor the cirrus
bit set and the minimum over the selected optical bands is strictly
positive.  Band values are not changed. -/
def maskPix (p : SPixel) : SPixel :=
  { p with
    valid := p.valid
      && (p.qa60 &&& cloudBitMask == 0)
      && (p.qa60 &&& cirrusBitMask == 0)
      && decide (0 < opticalMin p) }

/-- mask_s2_clouds of src/create_rrs_table.py lifted to an image. -/
def mask_s2_clouds (im : EEImage) : EEImage :=
  { im with pix := fun x y => (im.pix x y).map maskPix }

/-- Insert into a sorted list of rationals (helper of the median model). -/
def insertSorted (a : ℚ) : List ℚ → List ℚ
  | [] => [a]
  | b :: t => if a ≤ b then a :: b :: t else b :: insertSorted a t

/-- Insertion sort on rationals (helper of the median model). -/
def sortQ : List ℚ → List ℚ
  | [] => []
  | a :: t => insertSorted a (sortQ t)

/-- The provider's median reducer over a list of values: none on an empty
list (the reducer of a fully masked region yields null), otherwise the
middle of the sorted list (mean of the two middles for an even count). -/
def medianQ (l : List ℚ) : Option ℚ :=
  match sortQ l with
  | [] => none
  | a :: t =>
    let s := a :: t
    some (if s.length % 2 = 1 then s.getD (s.length / 2) 0
          else (s.getD (s.length / 2 - 1) 0 + s.getD (s.length / 2) 0) / 2)

/-- The per-band medians returned by reduceRegion(ee.Reducer.median(), point,
scale 20) on one image: for each band of interest, the median over the valid
(unmasked) pixels of the neighbourhood, null when no pixel is valid. -/
structure Sample where
  b2 : Option ℚ
  b3 : Option ℚ
  b4 : Option ℚ
  b5 : Option ℚ
  b6 : Option ℚ
  b7 : Option ℚ
  b8 : Option ℚ
  b8a : Option ℚ
deriving DecidableEq

/-- Median of one band over the valid pixels of a neighbourhood. -/
def bandMedian (l : List SPixel) (f : SPixel → ℚ) : Option ℚ :=
  medianQ ((l.filter (fun p => p.valid)).map f)

/-- reduceRegion with the median reducer at the point (x, y): the v_mean
dictionary of preproc, restricted to the band columns the table keeps. -/
def sampleAt (im : EEImage) (x y : ℚ) : Sample :=
  { b2 := bandMedian (im.pix x y) (fun p => p.b2)
    b3 := bandMedian (im.pix x y) (fun p => p.b3)
    b4 := bandMedian (im.pix x y) (fun p => p.b4)
    b5 := bandMedian (im.pix x y) (fun p => p.b5)
    b6 := bandMedian (im.pix x y) (fun p => p.b6)
    b7 := bandMedian (im.pix x y) (fun p => p.b7)
    b8 := bandMedian (im.pix x y) (fun p => p.b8)
    b8a := bandMedian (im.pix x y) (fun p => p.b8a) }

/-- One row of the observation table handed to preproc: the datetime cell
(none models a string ee.Date cannot parse), LONGITUDE, LATITUDE and CHL. -/
structure Obs where
  datetime : Option ℤ
  longitude : ℚ
  latitude : ℚ
  chl : ℚ
deriving DecidableEq

/-- One day in the provider's time unit (milliseconds), the step of
ee.Date.advance(±1, day). -/
def dayMs : ℤ := 86400000

/-- The message of the exception a malformed datetime cell raises when the
provider evaluates ee.Date on it. -/
def eeDateErrMsg : String := "Invalid Date"

/-- The message of the pandas KeyError raised by the final label-based column
selection when no observation resolved (the frame built from an empty dict
has no band columns). -/
def locKeyErrMsg : String := "KeyError: band columns not in index"

/-- ee.Date on the datetime cell of a row: a malformed timestamp raises when
the query built from it is evaluated, modelled as an error value. -/
def eeDate : Option ℤ → Except String ℤ
  | some t => Except.ok t
  | none => Except.error eeDateErrMsg

/-- ic.filterDate(start_date, end_date).filterBounds(point) of preproc with
start_date = t − 1 day and end_date = t + 1 day: the provider's filterDate
keeps images with start ≤ time < end (the end is exclusive), and filterBounds
keeps images whose footprint contains the point. -/
def filteredImages (ic : List EEImage) (t : ℤ) (x y : ℚ) : List EEImage :=
  ic.filter (fun im =>
    decide (t - dayMs ≤ im.t) && decide (im.t < t + dayMs) && im.contains x y)

/-- The candidate images preproc scans for one observation:
the filtered collection mapped through scale_msi and then mask_s2_clouds,
in the collection's native order. -/
def candidateImages (ic : List EEImage) (t : ℤ) (x y : ℚ) : List EEImage :=
  (filteredImages ic t x y).map (fun im => mask_s2_clouds (scale_msi im))

/-- The scan of preproc over the candidates of one observation: sample each
candidate in order and accept the first whose B3 median is non-null, breaking
out of the loop; none when the collection is empty or every candidate's B3
median is null. -/
def resolveScan (imgs : List EEImage) (x y : ℚ) : Option Sample :=
  (imgs.map (fun im => sampleAt im x y)).find? (fun s => s.b3.isSome)

/-- The resolution of one observation as a total function: none for a
malformed timestamp does not arise here because preproc propagates that
error instead (see preprocRaw); this function is the value preproc stores
when the row's ee.Date evaluation succeeded. -/
def oSample (ic : List EEImage) (o : Obs) : Option Sample :=
  match eeDate o.datetime with
  | Except.ok t => resolveScan (candidateImages ic t o.longitude o.latitude) o.longitude o.latitude
  | Except.error _ => none

/-- The main loop of preproc over dict_stats: for each observation id, in the
insertion order of the dict (the order of df.index), evaluate ee.Date, build
and scan the candidates, and record found_stats (None when unresolved).  An
exception from a malformed datetime is not caught anywhere in preproc, so it
propagates and aborts the whole loop. -/
def preprocRaw (ic : List EEImage) : List (Nat × Obs) → Except String (List (Nat × Option Sample))
  | [] => Except.ok []
  | p :: rest =>
    match eeDate p.2.datetime with
    | Except.error e => Except.error e
    | Except.ok t =>
      match preprocRaw ic rest with
      | Except.error e => Except.error e
      | Except.ok tail =>
        Except.ok ((p.1, resolveScan (candidateImages ic t p.2.longitude p.2.latitude)
            p.2.longitude p.2.latitude) :: tail)

/-- One row of the table preproc returns: the band columns of interest kept
by the final .loc selection, followed by CHL from the join (null when the id
is absent from the joined table). -/
structure Row where
  b2 : Option ℚ
  b3 : Option ℚ
  b4 : Option ℚ
  b5 : Option ℚ
  b6 : Option ℚ
  b7 : Option ℚ
  b8 : Option ℚ
  b8a : Option ℚ
  chl : Option ℚ
deriving DecidableEq

/-- The left join on the index with df_all[CHL]: the CHL value of the row
with the given id, none when the id is absent. -/
def lookupChl (dfAll : List (Nat × ℚ)) (i : Nat) : Option ℚ :=
  (dfAll.find? (fun p => p.1 == i)).map (fun p => p.2)

/-- Assemble one output row from a found sample and the joined CHL value. -/
def mkRow (s : Sample) (c : Option ℚ) : Row :=
  ⟨s.b2, s.b3, s.b4, s.b5, s.b6, s.b7, s.b8, s.b8a, c⟩

/-- The post-pass of preproc: delete the unresolved entries of dict_stats
(found_stats is None exactly for those), keep the band columns of interest
and join df_all[CHL] on the index; dict insertion order is preserved. -/
def keptRows (dfAll : List (Nat × ℚ)) (raw : List (Nat × Option Sample)) : List (Nat × Row) :=
  raw.filterMap (fun p => p.2.map (fun s => (p.1, mkRow s (lookupChl dfAll p.1))))

/-- preproc of src/create_rrs_table.py.  ic is the image collection, df the
observation table parameter, and dfAll models the module-level global df_all
whose CHL column the final join reads (the function reads the global, not its
df parameter).  When every observation is unresolved the frame built from the
emptied dict has no columns and the label-based .loc selection raises a
pandas KeyError, modelled as an error value. -/
def preproc (ic : List EEImage) (df : List (Nat × Obs)) (dfAll : List (Nat × ℚ)) :
    Except String (List (Nat × Row)) :=
  match preprocRaw ic df with
  | Except.error e => Except.error e
  | Except.ok raw =>
    match keptRows dfAll raw with
    | [] => Except.error locKeyErrMsg
    | q :: qs => Except.ok (q :: qs)

/-- The rows preproc returns, as a direct function of its inputs (proved
below to agree with preproc whenever preproc succeeds). -/
def rowsOf (ic : List EEImage) (df : List (Nat × Obs)) (dfAll : List (Nat × ℚ)) :
    List (Nat × Row) :=
  df.filterMap (fun p => (oSample ic p.2).map (fun s => (p.1, mkRow s (lookupChl dfAll p.1))))

/-- The candidate set the claim of the ±1-day window describes, written from
the spec's words with an inclusive right endpoint, for comparison with
filteredImages (which models the provider's exclusive end). -/
def specWindowImages (ic : List EEImage) (t : ℤ) (x y : ℚ) : List EEImage :=
  ic.filter (fun im =>
    decide (t - dayMs ≤ im.t) && decide (im.t ≤ t + dayMs) && im.contains x y)

end CreateRrs

namespace App

/-- scale_msi of app.py on one pixel: the selected bands B1, B2, B3 are
multiplied by 0.0001, every other band is untouched. -/
def scalePix (p : SPixel) : SPixel :=
  { p with
    b1 := p.b1 * 0.0001
    b2 := p.b2 * 0.0001
    b3 := p.b3 * 0.0001 }

/-- scale_msi of app.py lifted to an image. -/
def scale_msi (im : EEImage) : EEImage :=
  { im with pix := fun x y => (im.pix x y).map scalePix }

/-- The minimum over the bands B1, B2, B3 selected by mask_S2_clouds of
app.py. -/
def opticalMin (p : SPixel) : ℚ :=
  min p.b1 (min p.b2 p.b3)

/-- mask_S2_clouds of app.py on one pixel: same QA60 cloud/cirrus bits as the
table-building variant, minimum over B1, B2, B3; updateMask combines with the
pre-existing mask. -/
def maskPix (p : SPixel) : SPixel :=
  { p with
    valid := p.valid
      && (p.qa60 &&& CreateRrs.cloudBitMask == 0)
      && (p.qa60 &&& CreateRrs.cirrusBitMask == 0)
      && decide (0 < opticalMin p) }

/-- mask_S2_clouds of app.py lifted to an image. -/
def mask_S2_clouds (im : EEImage) : EEImage :=
  { im with pix := fun x y => (im.pix x y).map maskPix }

/-- The single-band output raster of calculate_oc3: the band renamed to oc3
and the validity after clipping to the fixed region of interest. -/
structure OcPixel where
  oc3 : ℚ
  valid : Bool
deriving DecidableEq

/-- Coefficient a0 = 0.2389 of calculate_oc3. -/
def a0 : ℚ := 0.2389

/-- Coefficient a1 = -1.9369 of calculate_oc3. -/
def a1 : ℚ := -1.9369

/-- Coefficient a2 = 1.7627 of calculate_oc3. -/
def a2 : ℚ := 1.7627

/-- Coefficient a3 = -3.0777 of calculate_oc3. -/
def a3 : ℚ := -3.0777

/-- Coefficient a4 = -0.1054 of calculate_oc3. -/
def a4 : ℚ := -0.1054

/-- calculate_oc3 of app.py on one pixel.  log10 and pow10 abstract the
provider's elementwise log10() and ee.Image(10).pow(·); the source computes
ratio = max(B1,B2)/B3, R = log10(ratio), then
oc3_log = a0 + (((R·a1 + R²·a2) + R³·a3) + R⁴·a4) and oc3 = 10^oc3_log,
renames the constant band to oc3 and clips to the Baikal geometry (a pixel
of the output is valid when it was valid and lies in the region). -/
def calculate_oc3 (log10 pow10 : ℚ → ℚ) (p : SPixel) : OcPixel :=
  let r := log10 (max p.b1 p.b2 / p.b3)
  let oc3Log := a0 + (r * a1 + r ^ 2 * a2 + r ^ 3 * a3 + r ^ 4 * a4)
  { oc3 := pow10 oc3Log, valid := p.valid && p.inRoi }

/-- calculate_oc3 lifted elementwise to a pixel list (one image). -/
def calcOc3Pixels (log10 pow10 : ℚ → ℚ) (l : List SPixel) : List OcPixel :=
  l.map (calculate_oc3 log10 pow10)

end App

namespace DataPre

/-- The value semantics of one converted cell of
convert_degree_and_min_to_degree in src/data_preprocessing.py.  The source
splits the cell "D M" into the degree string and the minute string, computes
str(float(M) / 60)[1:] — for 0 ≤ M < 60 that is the decimal expansion of
M / 60 with its leading zero dropped — and concatenates it to the degree
string.  The resulting string denotes D + M/60 when the degree string is
non-negative, and −(|D| + M/60) when it carries a sign, because the minutes
attach to the magnitude.  Decimal rendering is modelled as exact. -/
def convertEntry (d : ℤ) (m : ℚ) : ℚ :=
  if d < 0 then -(-(d : ℚ) + m / 60) else (d : ℚ) + m / 60

/-- A data frame for the conversion: the named column (cell type α: pairs of
degree and minute parts before the conversion, decimal values after) and the
remaining columns. -/
structure Frame (α : Type) where
  coord : List α
  other : List ℚ
deriving DecidableEq

/-- convert_degree_and_min_to_degree: a copy of the frame whose named column
is converted cell by cell; every other column is unchanged. -/
def convert_degree_and_min_to_degree (f : Frame (ℤ × ℚ)) : Frame ℚ :=
  { coord := f.coord.map (fun e => convertEntry e.1 e.2), other := f.other }

end DataPre

/-! ## Concrete instances used by witnesses and counterexamples -/

deriving instance DecidableEq for Except

/-- A valid pixel with clear QA bits and all bands strictly positive. -/
def pxValid : SPixel := ⟨1, 1, 1, 1, 1, 1, 1, 1, 1, 0, true, true⟩

/-- A raw pixel that is already masked (no data) although its QA bits are
clear and all its bands are strictly positive. -/
def pxPremasked : SPixel := ⟨1, 1, 1, 1, 1, 1, 1, 1, 1, 0, false, true⟩

/-- A raw pixel with clear QA bits, B2 = 2000, B3 = 3000 and 1000 in the
remaining optical bands (digital counts before scaling). -/
def pxRaw : SPixel := ⟨0, 2000, 3000, 1000, 1000, 1000, 1000, 1000, 1000, 0, true, true⟩

/-- A fully cloudy raw pixel: the QA60 cloud bit (bit 10) is set. -/
def pxCloud : SPixel := ⟨1000, 1000, 1000, 1000, 1000, 1000, 1000, 1000, 1000, 1024, true, true⟩

/-- An image at instant 0 whose footprint contains only the point (0, 0) and
whose neighbourhood at every point is the single pixel pxRaw. -/
def imgW : EEImage := ⟨0, fun x y => x == 0 && y == 0, fun _ _ => [pxRaw]⟩

/-- An image at instant 0 over the point (0, 0) whose only pixel is cloudy,
so its B3 median after masking is null. -/
def imgCloud : EEImage := ⟨0, fun x y => x == 0 && y == 0, fun _ _ => [pxCloud]⟩

/-- An image at instant 0 whose footprint contains only the point (1, 0). -/
def imgGoodB : EEImage := ⟨0, fun x y => x == 1 && y == 0, fun _ _ => [pxRaw]⟩

/-- An image acquired exactly one day after instant 0, footprint containing
every point. -/
def imgEdge : EEImage := ⟨CreateRrs.dayMs, fun _ _ => true, fun _ _ => [pxRaw]⟩

/-- An observation at (0, 0) at instant 0 with measured concentration 5. -/
def obsW0 : CreateRrs.Obs := ⟨some 0, 0, 0, 5⟩

/-- An observation at (5, 5), a point outside every test footprint. -/
def obsW1 : CreateRrs.Obs := ⟨some 0, 5, 5, 6⟩

/-- An observation at (1, 0) at instant 0. -/
def obsC1b : CreateRrs.Obs := ⟨some 0, 1, 0, 6⟩

/-- An observation whose datetime cell is malformed. -/
def obsBad : CreateRrs.Obs := ⟨none, 0, 0, 9⟩

/-- A two-row observation table: id 0 resolvable, id 1 without candidates. -/
def dfW : List (Nat × CreateRrs.Obs) := [(0, obsW0), (1, obsW1)]

/-- A module-global df_all with CHL 7 for id 0 and 8 for id 1. -/
def dfAllW : List (Nat × ℚ) := [(0, 7), (1, 8)]

/-- A module-global df_all whose CHL for id 0 is 99, different from the CHL
column of the observation table passed to preproc. -/
def dfAllC2 : List (Nat × ℚ) := [(0, 99)]

/-- The sample preproc extracts from imgW at (0, 0): the scaled medians of
pxRaw (2000·0.0001 = 1/5, 3000·0.0001 = 3/10, 1000·0.0001 = 1/10). -/
def sW : CreateRrs.Sample :=
  ⟨some (1/5), some (3/10), some (1/10), some (1/10), some (1/10), some (1/10),
    some (1/10), some (1/10)⟩

/-- The table preproc returns on imgW, dfW, dfAllW. -/
def rowsW : List (Nat × CreateRrs.Row) := [(0, CreateRrs.mkRow sW (some 7))]

/-- A table whose first observation has one candidate with a null B3 median
(all pixels cloudy) and whose second observation resolves. -/
def dfC1 : List (Nat × CreateRrs.Obs) := [(0, obsW0), (1, obsC1b)]

/-- The collection for the C1 counterexample: a cloudy image over (0, 0) and
a good image over (1, 0). -/
def icC1 : List EEImage := [imgCloud, imgGoodB]

/-- The table preproc returns on icC1, dfC1, dfAllW: only the row of id 1. -/
def rowsC1 : List (Nat × CreateRrs.Row) := [(1, CreateRrs.mkRow sW (some 8))]

/-! ## Claim theorems for the scaling, masking, index and ingestion layers -/

/-- C7: scale_msi replaces each designated optical band value v by exactly
v × 0.0001 = v / 10000, leaves every band not in the designated list (and the
mask, the QA band, the timestamp and the footprint) unchanged, in both the
table-building variant (bands B2–B8A) and the app variant (bands B1–B3). -/
theorem C7_scaling_linear (p : SPixel) (im : EEImage) (x y : ℚ) :
    (CreateRrs.scalePix p).b2 = p.b2 * (1 / 10000)
    ∧ (CreateRrs.scalePix p).b3 = p.b3 * (1 / 10000)
    ∧ (CreateRrs.scalePix p).b4 = p.b4 * (1 / 10000)
    ∧ (CreateRrs.scalePix p).b5 = p.b5 * (1 / 10000)
    ∧ (CreateRrs.scalePix p).b6 = p.b6 * (1 / 10000)
    ∧ (CreateRrs.scalePix p).b7 = p.b7 * (1 / 10000)
    ∧ (CreateRrs.scalePix p).b8 = p.b8 * (1 / 10000)
    ∧ (CreateRrs.scalePix p).b8a = p.b8a * (1 / 10000)
    ∧ (CreateRrs.scalePix p).b1 = p.b1
    ∧ (CreateRrs.scalePix p).qa60 = p.qa60
    ∧ (CreateRrs.scalePix p).valid = p.valid
    ∧ (CreateRrs.scalePix p).inRoi = p.inRoi
    ∧ (CreateRrs.scale_msi im).pix x y = (im.pix x y).map CreateRrs.scalePix
    ∧ (CreateRrs.scale_msi im).t = im.t
    ∧ (CreateRrs.scale_msi im).contains = im.contains
    ∧ (App.scalePix p).b1 = p.b1 * (1 / 10000)
    ∧ (App.scalePix p).b2 = p.b2 * (1 / 10000)
    ∧ (App.scalePix p).b3 = p.b3 * (1 / 10000)
    ∧ (App.scalePix p).b4 = p.b4
    ∧ (App.scalePix p).b5 = p.b5
    ∧ (App.scalePix p).b6 = p.b6
    ∧ (App.scalePix p).b7 = p.b7
    ∧ (App.scalePix p).b8 = p.b8
    ∧ (App.scalePix p).b8a = p.b8a
    ∧ (App.scalePix p).qa60 = p.qa60
    ∧ (App.scalePix p).valid = p.valid
    ∧ (App.scalePix p).inRoi = p.inRoi := by
  have hc : (0.0001 : ℚ) = 1 / 10000 := by norm_num
  simp [CreateRrs.scalePix, App.scalePix, CreateRrs.scale_msi, hc]

/-- C8: masking is monotonic — a pixel valid after mask_s2_clouds (or after
the app variant mask_S2_clouds) was already valid in the raw image, and the
masked image's pixels are the raw pixels mapped through the per-pixel mask,
so masking never makes a pixel valid that was invalid in the input. -/
theorem C8_mask_monotone (p : SPixel) (im : EEImage) (x y : ℚ) :
    ((CreateRrs.maskPix p).valid = true → p.valid = true)
    ∧ ((App.maskPix p).valid = true → p.valid = true)
    ∧ (CreateRrs.mask_s2_clouds im).pix x y = (im.pix x y).map CreateRrs.maskPix
    ∧ (App.mask_S2_clouds im).pix x y = (im.pix x y).map App.maskPix := by
  refine ⟨fun h => ?_, fun h => ?_, rfl, rfl⟩
  · simp only [CreateRrs.maskPix, Bool.and_eq_true] at h
    exact h.1.1.1
  · simp only [App.maskPix, Bool.and_eq_true] at h
    exact h.1.1.1

/-- C8 witness: the monotonicity theorem applied to a concrete valid pixel
that survives the mask. -/
theorem C8_mask_monotone_witness : pxValid.valid = true :=
  (C8_mask_monotone pxValid ⟨0, fun _ _ => true, fun _ _ => []⟩ 0 0).1 (by decide)

/-- C6 counterexample: for a raw pixel that is already masked although its
cloud and cirrus bits are clear and its optical minimum is strictly
positive, the output pixel is excluded even though the claimed exclusion
condition is false — updateMask keeps pre-masked pixels excluded, so the
claim's "exactly when … and no other pixels are excluded" fails as stated. -/
theorem C6_counterexample :
    ¬ (((CreateRrs.maskPix pxPremasked).valid = false) ↔
      (pxPremasked.qa60 &&& CreateRrs.cloudBitMask ≠ 0
        ∨ pxPremasked.qa60 &&& CreateRrs.cirrusBitMask ≠ 0
        ∨ CreateRrs.opticalMin pxPremasked ≤ 0)) := by
  decide

/-- C6 amended: among pixels valid in the raw image, masking excludes a pixel
exactly when the cloud bit is set, or the cirrus bit is set, or the minimum
over the designated optical bands is not strictly positive; all band values
and the QA band are preserved; pixels already excluded in the raw image stay
excluded.  Both the table-building variant and the app variant satisfy
this. -/
theorem C6_mask_amended (p : SPixel) (h : p.valid = true) :
    ((CreateRrs.maskPix p).valid = false ↔
      (p.qa60 &&& CreateRrs.cloudBitMask ≠ 0 ∨ p.qa60 &&& CreateRrs.cirrusBitMask ≠ 0
        ∨ CreateRrs.opticalMin p ≤ 0))
    ∧ (CreateRrs.maskPix p).b1 = p.b1
    ∧ (CreateRrs.maskPix p).b2 = p.b2
    ∧ (CreateRrs.maskPix p).b3 = p.b3
    ∧ (CreateRrs.maskPix p).b4 = p.b4
    ∧ (CreateRrs.maskPix p).b5 = p.b5
    ∧ (CreateRrs.maskPix p).b6 = p.b6
    ∧ (CreateRrs.maskPix p).b7 = p.b7
    ∧ (CreateRrs.maskPix p).b8 = p.b8
    ∧ (CreateRrs.maskPix p).b8a = p.b8a
    ∧ (CreateRrs.maskPix p).qa60 = p.qa60
    ∧ ((App.maskPix p).valid = false ↔
      (p.qa60 &&& CreateRrs.cloudBitMask ≠ 0 ∨ p.qa60 &&& CreateRrs.cirrusBitMask ≠ 0
        ∨ App.opticalMin p ≤ 0)) := by
  refine ⟨?_, rfl, rfl, rfl, rfl, rfl, rfl, rfl, rfl, rfl, rfl, ?_⟩
  · rw [Bool.eq_false_iff]
    simp only [CreateRrs.maskPix, h, Bool.and_eq_true, decide_eq_true_eq, true_and, ne_eq,
      beq_iff_eq, not_and, not_lt]
    constructor
    · intro hx
      by_cases hc : p.qa60 &&& CreateRrs.cloudBitMask = 0
      · by_cases hs : p.qa60 &&& CreateRrs.cirrusBitMask = 0
        · exact Or.inr (Or.inr (hx ⟨hc, hs⟩))
        · exact Or.inr (Or.inl hs)
      · exact Or.inl hc
    · intro hx hy
      rcases hx with hx | hx | hx
      · exact absurd hy.1 hx
      · exact absurd hy.2 hx
      · exact hx
  · rw [Bool.eq_false_iff]
    simp only [App.maskPix, h, Bool.and_eq_true, decide_eq_true_eq, true_and, ne_eq,
      beq_iff_eq, not_and, not_lt]
    constructor
    · intro hx
      by_cases hc : p.qa60 &&& CreateRrs.cloudBitMask = 0
      · by_cases hs : p.qa60 &&& CreateRrs.cirrusBitMask = 0
        · exact Or.inr (Or.inr (hx ⟨hc, hs⟩))
        · exact Or.inr (Or.inl hs)
      · exact Or.inl hc
    · intro hx hy
      rcases hx with hx | hx | hx
      · exact absurd hy.1 hx
      · exact absurd hy.2 hx
      · exact hx

/-- C6 witness: the amended masking contract applied to a concrete valid
pixel with all bands positive and clear QA bits: it is not excluded. -/
theorem C6_mask_amended_witness : ¬ ((CreateRrs.maskPix pxValid).valid = false) :=
  fun hf => by
    have h := ((C6_mask_amended pxValid rfl).1).mp hf
    revert h
    decide

/-- C9: calculate_oc3 computes, elementwise and purely in terms of the
provider's abstract log10 and base-10 power, the index
10^(0.2389 − 1.9369·R + 1.7627·R² − 3.0777·R³ − 0.1054·R⁴) with
R = log10(max(B1,B2)/B3), returns it as the single band oc3, and clips to
the fixed region of interest (output pixel valid iff valid and inside). -/
theorem C9_oc3_formula (log10 pow10 : ℚ → ℚ) (p : SPixel) (l : List SPixel) :
    (App.calculate_oc3 log10 pow10 p).oc3 =
      pow10 (0.2389 - 1.9369 * log10 (max p.b1 p.b2 / p.b3)
        + 1.7627 * log10 (max p.b1 p.b2 / p.b3) ^ 2
        - 3.0777 * log10 (max p.b1 p.b2 / p.b3) ^ 3
        - 0.1054 * log10 (max p.b1 p.b2 / p.b3) ^ 4)
    ∧ (App.calculate_oc3 log10 pow10 p).valid = (p.valid && p.inRoi)
    ∧ App.calcOc3Pixels log10 pow10 l = l.map (App.calculate_oc3 log10 pow10) := by
  refine ⟨?_, rfl, rfl⟩
  show pow10 (App.a0 + (log10 (max p.b1 p.b2 / p.b3) * App.a1
      + log10 (max p.b1 p.b2 / p.b3) ^ 2 * App.a2
      + log10 (max p.b1 p.b2 / p.b3) ^ 3 * App.a3
      + log10 (max p.b1 p.b2 / p.b3) ^ 4 * App.a4)) = _
  refine congrArg pow10 ?_
  simp only [App.a0, App.a1, App.a2, App.a3, App.a4]
  ring

/-- C10 counterexample: for the degree-minute cell with D = −45 and M = 30
(integer degrees, 0 ≤ M < 60), the conversion produces −45.5 — the sign
applies to the whole magnitude — and not D + M/60 = −44.5 as claimed. -/
theorem C10_counterexample :
    ¬ (DataPre.convertEntry (-45) 30 = ((-45 : ℚ) + 30 / 60)) := by
  decide

/-- C10 amended: for a cell with degree part D and minute part M with
0 ≤ M < 60, the conversion produces D + M/60 when D is non-negative and
−(|D| + M/60) when D is negative (the minutes add to the magnitude, the
sign of the degree string applies to the whole value); every other column
of the frame is unchanged and the named column is converted cell by cell. -/
theorem C10_degree_minute_amended (d : ℤ) (m : ℚ) (f : DataPre.Frame (ℤ × ℚ))
    (hm0 : 0 ≤ m) (hm : m < 60) :
    (0 ≤ d → DataPre.convertEntry d m = (d : ℚ) + m / 60)
    ∧ (d < 0 → DataPre.convertEntry d m = -(-(d : ℚ) + m / 60))
    ∧ (DataPre.convert_degree_and_min_to_degree f).other = f.other
    ∧ (DataPre.convert_degree_and_min_to_degree f).coord
        = f.coord.map (fun e => DataPre.convertEntry e.1 e.2) := by
  refine ⟨fun hd => ?_, fun hd => ?_, rfl, rfl⟩
  · simp [DataPre.convertEntry, not_lt.mpr hd]
  · simp [DataPre.convertEntry, hd]

/-- C10 witness: the amended conversion contract applied to the cell
"45 30.0": the produced value is 45 + 30/60 = 45.5. -/
theorem C10_degree_minute_amended_witness :
    DataPre.convertEntry 45 30 = (45 : ℚ) + 30 / 60 :=
  (C10_degree_minute_amended 45 30 ⟨[], []⟩ (by norm_num) (by norm_num)).1 (by norm_num)

/-! ## The matcher: helper lemmas -/

/-- The main loop of preproc, when it raises no exception, records for each
observation id exactly the resolution of that observation. -/
theorem preprocRaw_ok (ic : List EEImage) :
    ∀ df raw, CreateRrs.preprocRaw ic df = Except.ok raw →
      raw = df.map (fun p => (p.1, CreateRrs.oSample ic p.2)) := by
  intro df
  induction df with
  | nil =>
    intro raw h
    simp only [CreateRrs.preprocRaw, Except.ok.injEq] at h
    simp [← h]
  | cons p rest ih =>
    intro raw h
    simp only [CreateRrs.preprocRaw] at h
    cases hd : CreateRrs.eeDate p.2.datetime with
    | error e => rw [hd] at h; cases h
    | ok t =>
      simp only [hd] at h
      cases hr : CreateRrs.preprocRaw ic rest with
      | error e => rw [hr] at h; cases h
      | ok tail =>
        simp only [hr, Except.ok.injEq] at h
        rw [← h, List.map_cons]
        refine congrArg₂ _ ?_ (ih tail hr)
        simp [CreateRrs.oSample, hd]

/-- The post-pass applied to the loop's records is the direct row function
of the inputs. -/
theorem keptRows_map (ic : List EEImage) (df : List (Nat × CreateRrs.Obs))
    (dfAll : List (Nat × ℚ)) :
    CreateRrs.keptRows dfAll (df.map (fun p => (p.1, CreateRrs.oSample ic p.2)))
      = CreateRrs.rowsOf ic df dfAll := by
  unfold CreateRrs.keptRows CreateRrs.rowsOf
  rw [List.filterMap_map]
  rfl

/-- Whenever preproc returns a table, the table is rowsOf, the direct
function of the collection, the observation table and the joined global. -/
theorem preproc_ok_rows (ic : List EEImage) (df : List (Nat × CreateRrs.Obs))
    (dfAll : List (Nat × ℚ)) (rows : List (Nat × CreateRrs.Row))
    (h : CreateRrs.preproc ic df dfAll = Except.ok rows) :
    rows = CreateRrs.rowsOf ic df dfAll := by
  unfold CreateRrs.preproc at h
  cases hr : CreateRrs.preprocRaw ic df with
  | error e => rw [hr] at h; cases h
  | ok raw =>
    simp only [hr] at h
    cases hk : CreateRrs.keptRows dfAll raw with
    | nil => rw [hk] at h; cases h
    | cons q qs =>
      simp only [hk, Except.ok.injEq] at h
      rw [← h, ← hk, preprocRaw_ok ic df raw hr, keptRows_map]

/-- In a table with unique ids, an id determines its row. -/
theorem key_unique {α : Type} {l : List (Nat × α)} (h : (l.map Prod.fst).Nodup)
    {i : Nat} {a b : α} (ha : (i, a) ∈ l) (hb : (i, b) ∈ l) : a = b := by
  induction l with
  | nil => cases ha
  | cons c rest ih =>
    simp only [List.map_cons, List.nodup_cons] at h
    rcases List.mem_cons.mp ha with ha1 | ha1
    · rcases List.mem_cons.mp hb with hb1 | hb1
      · have hab := ha1.trans hb1.symm
        exact (Prod.mk.injEq _ _ _ _ ▸ hab).2
      · exfalso
        apply h.1
        rw [← ha1]
        exact List.mem_map.mpr ⟨(i, b), hb1, rfl⟩
    · rcases List.mem_cons.mp hb with hb1 | hb1
      · exfalso
        apply h.1
        rw [← hb1]
        exact List.mem_map.mpr ⟨(i, a), ha1, rfl⟩
      · exact ih h.2 ha1 hb1

/-- Membership in the result table: a row for id i exists exactly for a
resolved observation with that id, and carries its sample and joined CHL. -/
theorem rowsOf_mem (ic : List EEImage) (df : List (Nat × CreateRrs.Obs))
    (dfAll : List (Nat × ℚ)) (i : Nat) (r : CreateRrs.Row) :
    (i, r) ∈ CreateRrs.rowsOf ic df dfAll ↔
      ∃ o, (i, o) ∈ df ∧ ∃ s, CreateRrs.oSample ic o = some s
        ∧ r = CreateRrs.mkRow s (CreateRrs.lookupChl dfAll i) := by
  unfold CreateRrs.rowsOf
  rw [List.mem_filterMap]
  constructor
  · rintro ⟨p, hp, he⟩
    cases hs : CreateRrs.oSample ic p.2 with
    | none => rw [hs] at he; cases he
    | some s =>
      rw [hs, Option.map_some'] at he
      simp only [Option.some.injEq, Prod.mk.injEq] at he
      obtain ⟨h1, h2⟩ := he
      refine ⟨p.2, ?_, s, hs, h2.symm ▸ h1 ▸ rfl⟩
      rw [← h1]
      exact hp
  · rintro ⟨o, ho, s, hs, hr⟩
    exact ⟨(i, o), ho, by simp [hs, ← hr]⟩

/-- Every row of the result table carries the id of some input
observation. -/
theorem rowsOf_keys (ic : List EEImage) (df : List (Nat × CreateRrs.Obs))
    (dfAll : List (Nat × ℚ)) (q : Nat × CreateRrs.Row)
    (h : q ∈ CreateRrs.rowsOf ic df dfAll) : ∃ o, (q.1, o) ∈ df := by
  unfold CreateRrs.rowsOf at h
  rw [List.mem_filterMap] at h
  obtain ⟨p, hp, he⟩ := h
  cases hs : CreateRrs.oSample ic p.2 with
  | none => rw [hs] at he; cases he
  | some s =>
    rw [hs, Option.map_some'] at he
    simp only [Option.some.injEq] at he
    refine ⟨p.2, ?_⟩
    rw [← he]
    exact hp

/-- No row is produced for an id absent from the observation table. -/
theorem rowsOf_filter_nil (ic : List EEImage) (df : List (Nat × CreateRrs.Obs))
    (dfAll : List (Nat × ℚ)) (i : Nat) (h : i ∉ df.map Prod.fst) :
    (CreateRrs.rowsOf ic df dfAll).filter (fun q => q.1 == i) = [] := by
  rw [List.filter_eq_nil_iff]
  intro q hq hqi
  obtain ⟨o, ho⟩ := rowsOf_keys ic df dfAll q hq
  apply h
  have : q.1 = i := by simpa using hqi
  rw [← this]
  exact List.mem_map.mpr ⟨(q.1, o), ho, rfl⟩

/-- With unique ids, a resolved observation yields exactly one row, holding
its sample and its joined CHL value. -/
theorem rowsOf_filter_eq (ic : List EEImage) (df : List (Nat × CreateRrs.Obs))
    (dfAll : List (Nat × ℚ)) (i : Nat) (o : CreateRrs.Obs) (s : CreateRrs.Sample)
    (hnd : (df.map Prod.fst).Nodup) (hmem : (i, o) ∈ df)
    (hs : CreateRrs.oSample ic o = some s) :
    (CreateRrs.rowsOf ic df dfAll).filter (fun q => q.1 == i)
      = [(i, CreateRrs.mkRow s (CreateRrs.lookupChl dfAll i))] := by
  induction df with
  | nil => cases hmem
  | cons p rest ih =>
    simp only [List.map_cons, List.nodup_cons] at hnd
    rcases List.mem_cons.mp hmem with h1 | h1
    · rw [← h1] at hnd
      unfold CreateRrs.rowsOf
      rw [List.filterMap_cons, ← h1, hs, Option.map_some']
      rw [List.filter_cons_of_pos (by simp)]
      have htail := rowsOf_filter_nil ic rest dfAll i hnd.1
      unfold CreateRrs.rowsOf at htail
      rw [htail]
    · have hne : p.1 ≠ i := by
        intro hpe
        apply hnd.1
        rw [hpe]
        exact List.mem_map.mpr ⟨(i, o), h1, rfl⟩
      have htail := ih hnd.2 h1
      unfold CreateRrs.rowsOf at htail ⊢
      rw [List.filterMap_cons]
      cases hps : CreateRrs.oSample ic p.2 with
      | none => exact htail
      | some s2 =>
        rw [Option.map_some', List.filter_cons_of_neg (by simpa using hne)]
        exact htail

/-- A successful find? returns the element at some position k satisfying
the predicate while every earlier element falsifies it. -/
theorem find?_first {α : Type} (p : α → Bool) :
    ∀ (l : List α) (a : α), l.find? p = some a →
      ∃ k : Nat, l[k]? = some a ∧ p a = true
        ∧ ∀ (j : Nat) (b : α), j < k → l[j]? = some b → p b = false := by
  intro l
  induction l with
  | nil => intro a h; cases h
  | cons x rest ih =>
    intro a h
    cases hp : p x with
    | true =>
      rw [List.find?_cons_of_pos _ hp] at h
      obtain rfl : x = a := by simpa using h
      exact ⟨0, by simp, hp, fun j b hj => absurd hj (Nat.not_lt_zero j)⟩
    | false =>
      rw [List.find?_cons_of_neg _ (by simp [hp])] at h
      obtain ⟨k, hk, hpa, hbef⟩ := ih a h
      refine ⟨k + 1, ?_, hpa, fun j b hj hjb => ?_⟩
      · simpa using hk
      cases j with
      | zero =>
        have : b = x := by simpa using hjb.symm
        rw [this]
        exact hp
      | succ j2 =>
        exact hbef j2 b (Nat.lt_of_succ_lt_succ hj) (by simpa using hjb)

/-- C1 (amended): for every observation of the table, under unique ids and
a successful build, if the scan of its candidates finds a sample (some
candidate's B3 median is non-null) then the result table contains exactly
one row for that observation, whose band values are the per-band medians of
the first candidate, in the collection's native order, whose B3 median is
non-null — every earlier candidate's B3 median is null — joined with the
global table's CHL value. -/
theorem C1_first_valid_candidate (ic : List EEImage) (df : List (Nat × CreateRrs.Obs))
    (dfAll : List (Nat × ℚ)) (rows : List (Nat × CreateRrs.Row)) (i : Nat)
    (o : CreateRrs.Obs) (t : ℤ) (s : CreateRrs.Sample)
    (hok : CreateRrs.preproc ic df dfAll = Except.ok rows)
    (hnd : (df.map Prod.fst).Nodup)
    (hmem : (i, o) ∈ df)
    (ht : CreateRrs.eeDate o.datetime = Except.ok t)
    (hs : CreateRrs.resolveScan (CreateRrs.candidateImages ic t o.longitude o.latitude)
        o.longitude o.latitude = some s) :
    rows.filter (fun q => q.1 == i)
      = [(i, CreateRrs.mkRow s (CreateRrs.lookupChl dfAll i))]
    ∧ ∃ k : Nat, ∃ c : EEImage,
        (CreateRrs.candidateImages ic t o.longitude o.latitude)[k]? = some c
        ∧ CreateRrs.sampleAt c o.longitude o.latitude = s
        ∧ s.b3.isSome = true
        ∧ ∀ (j : Nat) (c2 : EEImage), j < k →
            (CreateRrs.candidateImages ic t o.longitude o.latitude)[j]? = some c2 →
            (CreateRrs.sampleAt c2 o.longitude o.latitude).b3 = none := by
  have hrows := preproc_ok_rows ic df dfAll rows hok
  subst hrows
  constructor
  · apply rowsOf_filter_eq ic df dfAll i o s hnd hmem
    unfold CreateRrs.oSample
    rw [ht]
    exact hs
  · unfold CreateRrs.resolveScan at hs
    obtain ⟨k, hk, hpa, hbef⟩ := find?_first _ _ _ hs
    rw [List.getElem?_map] at hk
    cases hc : (CreateRrs.candidateImages ic t o.longitude o.latitude)[k]? with
    | none => rw [hc] at hk; cases hk
    | some c =>
      rw [hc, Option.map_some'] at hk
      have hcs : CreateRrs.sampleAt c o.longitude o.latitude = s := by simpa using hk
      refine ⟨k, c, hc, hcs, hpa, fun j c2 hj hjc => ?_⟩
      have hb := hbef j (CreateRrs.sampleAt c2 o.longitude o.latitude) hj
        (by rw [List.getElem?_map, hjc, Option.map_some'])
      cases h3 : (CreateRrs.sampleAt c2 o.longitude o.latitude).b3 with
      | none => rfl
      | some v => rw [h3] at hb; cases hb

/-- C1 witness: the first-valid-candidate theorem applied to a concrete
collection and table in which observation 0 resolves. -/
theorem C1_first_valid_candidate_witness :
    rowsW.filter (fun q => q.1 == 0)
      = [(0, CreateRrs.mkRow sW (CreateRrs.lookupChl dfAllW 0))] :=
  (C1_first_valid_candidate [imgW] dfW dfAllW rowsW 0 obsW0 0 sW (by decide) (by decide)
    (by decide) (by decide) (by decide)).1

/-- C1 counterexample: observation 0 has exactly one candidate image in its
search window (the cloudy image), yet the result table preproc returns has
no row for it, because that candidate's B3 median is null — the claim's
premise (at least one candidate) does not suffice for a row. -/
theorem C1_counterexample :
    (CreateRrs.filteredImages icC1 0 0 0).length = 1
    ∧ CreateRrs.preproc icC1 dfC1 dfAllW = Except.ok rowsC1
    ∧ rowsC1.filter (fun q => q.1 == 0) = [] := by
  refine ⟨by decide, by decide, by decide⟩

/-- C2 (code bug): preproc joins the CHL column of the module-level global
df_all, not of the observation table it was passed — called with a table
whose CHL for id 0 is 5 while the global holds 99, the returned row carries
99. -/
theorem C2_chl_from_global :
    CreateRrs.preproc [imgW] [(0, obsW0)] dfAllC2
      = Except.ok [(0, CreateRrs.mkRow sW (some 99))]
    ∧ obsW0.chl = 5 := by
  exact ⟨by decide, by decide⟩

/-- C3 counterexample: an image acquired exactly at the observation's date
plus one day, whose footprint contains the point, lies inside the claim's
closed ±1-day window but is not among the candidates preproc scans, because
the provider's filterDate end is exclusive. -/
theorem C3_counterexample :
    (CreateRrs.filteredImages [imgEdge] 0 0 0).length = 0
    ∧ (CreateRrs.specWindowImages [imgEdge] 0 0 0).length = 1 := by
  exact ⟨by decide, by decide⟩

/-- C3 (amended): the candidate set preproc scans for an observation is
exactly the images of the collection whose acquisition instant lies in the
half-open window from date minus one day (inclusive) to date plus one day
(exclusive) and whose footprint contains the observation's point; every
sample the scan returns comes from such an image, scaled then masked, so no
image outside the window or footprint is ever sampled. -/
theorem C3_window_amended (ic : List EEImage) (t : ℤ) (x y : ℚ) (im : EEImage)
    (s : CreateRrs.Sample) :
    (im ∈ CreateRrs.filteredImages ic t x y ↔
      (im ∈ ic ∧ t - CreateRrs.dayMs ≤ im.t ∧ im.t < t + CreateRrs.dayMs
        ∧ im.contains x y = true))
    ∧ (CreateRrs.resolveScan (CreateRrs.candidateImages ic t x y) x y = some s →
        ∃ im2, im2 ∈ CreateRrs.filteredImages ic t x y
          ∧ s = CreateRrs.sampleAt (CreateRrs.mask_s2_clouds (CreateRrs.scale_msi im2)) x y) := by
  constructor
  · unfold CreateRrs.filteredImages
    rw [List.mem_filter]
    simp [Bool.and_eq_true, decide_eq_true_eq, and_assoc]
  · intro h
    unfold CreateRrs.resolveScan at h
    have hsm := List.mem_of_find?_eq_some h
    obtain ⟨c, hc, rfl⟩ := List.mem_map.mp hsm
    unfold CreateRrs.candidateImages at hc
    obtain ⟨im2, him2, rfl⟩ := List.mem_map.mp hc
    exact ⟨im2, him2, rfl⟩

/-- C3 witness: the window characterization applied to a concrete image at
instant 0 for an observation at instant 0. -/
theorem C3_window_amended_witness :
    imgW ∈ CreateRrs.filteredImages [imgW] 0 0 0 :=
  (C3_window_amended [imgW] 0 0 0 imgW
      ⟨none, none, none, none, none, none, none, none⟩).1.mpr
    ⟨List.mem_singleton.mpr rfl, by decide, by decide, by decide⟩

/-- C4: under unique ids and a successful build, an observation of the table
has no row in the result exactly when its search window holds no candidate
image or every candidate's B3 median is null; and only observations of the
input table ever contribute rows. -/
theorem C4_unresolved_dropped (ic : List EEImage) (df : List (Nat × CreateRrs.Obs))
    (dfAll : List (Nat × ℚ)) (rows : List (Nat × CreateRrs.Row)) (i : Nat)
    (o : CreateRrs.Obs) (t : ℤ)
    (hok : CreateRrs.preproc ic df dfAll = Except.ok rows)
    (hnd : (df.map Prod.fst).Nodup)
    (hmem : (i, o) ∈ df)
    (ht : CreateRrs.eeDate o.datetime = Except.ok t) :
    ((¬ ∃ r, (i, r) ∈ rows) ↔
      (CreateRrs.candidateImages ic t o.longitude o.latitude = []
        ∨ ∀ c ∈ CreateRrs.candidateImages ic t o.longitude o.latitude,
            (CreateRrs.sampleAt c o.longitude o.latitude).b3 = none))
    ∧ ∀ q ∈ rows, ∃ o2, (q.1, o2) ∈ df := by
  have hrows := preproc_ok_rows ic df dfAll rows hok
  subst hrows
  refine ⟨?_, fun q hq => rowsOf_keys ic df dfAll q hq⟩
  have hex : (∃ r, (i, r) ∈ CreateRrs.rowsOf ic df dfAll) ↔
      ∃ s, CreateRrs.oSample ic o = some s := by
    constructor
    · rintro ⟨r, hr⟩
      obtain ⟨o2, ho2, s, hs, _⟩ := (rowsOf_mem ic df dfAll i r).mp hr
      have ho : o2 = o := key_unique hnd ho2 hmem
      exact ⟨s, ho ▸ hs⟩
    · rintro ⟨s, hs⟩
      exact ⟨_, (rowsOf_mem ic df dfAll i _).mpr ⟨o, hmem, s, hs, rfl⟩⟩
  have hnone : CreateRrs.oSample ic o = none ↔
      ∀ c ∈ CreateRrs.candidateImages ic t o.longitude o.latitude,
        (CreateRrs.sampleAt c o.longitude o.latitude).b3 = none := by
    unfold CreateRrs.oSample
    rw [ht]
    unfold CreateRrs.resolveScan
    rw [List.find?_eq_none]
    constructor
    · intro hf c hc
      have hnf := hf _ (List.mem_map.mpr ⟨c, hc, rfl⟩)
      cases h3 : (CreateRrs.sampleAt c o.longitude o.latitude).b3 with
      | none => rfl
      | some v => exact absurd (by simp [h3]) hnf
    · intro hf s2 hsm
      obtain ⟨c, hc, rfl⟩ := List.mem_map.mp hsm
      simp [hf c hc]
  constructor
  · intro hne
    refine Or.inr (hnone.mp ?_)
    cases hos : CreateRrs.oSample ic o with
    | none => rfl
    | some s => exact absurd (hex.mpr ⟨s, hos⟩) hne
  · rintro (hem | hall) <;> intro hcon <;> obtain ⟨s, hs⟩ := hex.mp hcon
    · have h0 : CreateRrs.oSample ic o = none := by
        apply hnone.mpr
        rw [hem]
        intro c hc
        exact absurd hc (List.not_mem_nil c)
      rw [h0] at hs
      cases hs
    · rw [hnone.mpr hall] at hs
      cases hs

/-- C4 witness: the drop characterization applied to observation 1, whose
point lies outside every footprint: it has no row. -/
theorem C4_unresolved_dropped_witness :
    ¬ ∃ r, ((1 : Nat), r) ∈ rowsW :=
  ((C4_unresolved_dropped [imgW] dfW dfAllW rowsW 1 obsW1 0 (by decide) (by decide)
      (by decide) (by decide)).1).mpr (Or.inr (by decide))

/-- C5 (code bug): a malformed datetime in one row makes the whole build
raise (no table is returned at all), although the same collection and table
without the bad row resolves observation 0 — preproc has no per-observation
error handling. -/
theorem C5_error_aborts :
    CreateRrs.preproc [imgW] [(0, obsW0), (2, obsBad)] dfAllW
      = Except.error CreateRrs.eeDateErrMsg
    ∧ CreateRrs.preproc [imgW] [(0, obsW0)] dfAllW
      = Except.ok [(0, CreateRrs.mkRow sW (CreateRrs.lookupChl dfAllW 0))] := by
  exact ⟨by decide, by decide⟩
